import Mathlib

/-!
Shallow embedding of `src/Yank/schema/validator.py` (YANK's schema-driven
configuration validator and polymorphic object builder).

Python values are modelled by the inductive `Yank.Val`; Python floats are
modelled as extended rationals (every float literal appearing in the source,
such as `3.5` and `float('inf')`, is exact in this model, and the operations
the source applies to floats — comparison with infinity and `int()`
truncation — agree with this model on those values).  Exceptions are modelled
by `Except` with a `PyExc` carrying the exception class name and message.
Mutable dictionaries are modelled, where a claim is about mutation, by an
explicit heap of association lists; elsewhere dictionaries are passed by
value, which is observationally equal because `call_constructor` deep-copies
its argument before any mutation.

External collaborators (the subclass registry `mmtools.utils.find_subclass`,
`yank.utils.get_keyword_args` / `validate_parameters` /
`quantity_from_string`) are abstracted into an `Env` record of functions, so
the theorems below are proved for every behaviour of those collaborators.
-/

namespace Yank

/-- Python `float` values used by the source: an exact (dyadic/decimal)
finite value, the two infinities, or NaN. -/
inductive PyFloat where
  | finite (q : ℚ)
  | inf
  | negInf
  | nan
deriving DecidableEq

/-- A Python runtime type: its name and the names of its proper ancestors
(used by `isinstance`-style checks; `type(v) is t` is name identity). -/
structure PyType where
  name : String
  bases : List String
deriving DecidableEq

/-- A Python value, covering the shapes the validator manipulates. -/
inductive Val where
  | none
  | bool (b : Bool)
  | int (n : ℤ)
  | float (f : PyFloat)
  | str (s : String)
  | quantity (mag : ℚ) (u : String)
  | list (xs : List Val)
  | dict (entries : List (String × Val))
  | obj (ty : PyType)

/-- A raised Python exception: class name and message. -/
structure PyExc where
  kind : String
  msg : String
deriving DecidableEq

/-- The exact runtime type of a value (`type(v)` in Python); note that
`bool` is a subclass of `int` in Python. -/
def pyTypeOf : Val → PyType
  | Val.none => ⟨"NoneType", []⟩
  | Val.bool _ => ⟨"bool", ["int"]⟩
  | Val.int _ => ⟨"int", []⟩
  | Val.float _ => ⟨"float", []⟩
  | Val.str _ => ⟨"str", []⟩
  | Val.quantity _ _ => ⟨"Quantity", []⟩
  | Val.list _ => ⟨"list", []⟩
  | Val.dict _ => ⟨"dict", []⟩
  | Val.obj ty => ty

/-- Association lists standing for Python `dict`s (insertion ordered). -/
abbrev Assoc (α : Type) := List (String × α)

/-- `d.get(k)` / `d[k]`-style lookup: first entry with key `k`. -/
def assocGet {α : Type} : Assoc α → String → Option α
  | [], _ => Option.none
  | (k', v) :: rest, k => if k' = k then some v else assocGet rest k

/-- Key removal (`d.pop(k)`'s effect on the dictionary). -/
def assocErase {α : Type} (d : Assoc α) (k : String) : Assoc α :=
  d.filter (fun kv => kv.1 != k)

/-- `d[k] = v`: replace in place if the key exists (Python dicts keep the
original insertion position), otherwise append. -/
def assocSet {α : Type} (d : Assoc α) (k : String) (v : α) : Assoc α :=
  if (assocGet d k).isSome then
    d.map (fun kv => if kv.1 = k then (k, v) else kv)
  else
    d ++ [(k, v)]

/-- Truncation toward zero, the behaviour of Python `int()` on a finite
float. -/
def pyTrunc (q : ℚ) : ℤ :=
  if q < 0 then -(Rat.floor (-q)) else Rat.floor q

/-- Parse of a decimal integer literal, the behaviour of Python `int()` on a
string: optional sign followed by at least one digit (surrounding
whitespace, underscores and other Python niceties are not needed by any
value the source feeds in). -/
def parseIntStr (s : String) : Option ℤ :=
  let core : List Char → Option ℤ := fun cs =>
    if cs = [] ∨ ¬ cs.all Char.isDigit then Option.none
    else some (cs.foldl (fun acc c => acc * 10 + (c.toNat - 48 : ℤ)) 0)
  match s.data with
  | '-' :: rest => (core rest).map Neg.neg
  | '+' :: rest => core rest
  | cs => core cs

/-- Python `int(value)`: identity on ints, truncation on finite floats,
`True`/`False` to 1/0, decimal parse on strings, and an exception on
everything else (infinities, NaN, `None`, containers, ...). -/
def pyInt : Val → Except PyExc ℤ
  | Val.int n => .ok n
  | Val.bool b => .ok (if b then 1 else 0)
  | Val.float (PyFloat.finite q) => .ok (pyTrunc q)
  | Val.float PyFloat.inf =>
      .error ⟨"OverflowError", "cannot convert float infinity to integer"⟩
  | Val.float PyFloat.negInf =>
      .error ⟨"OverflowError", "cannot convert float infinity to integer"⟩
  | Val.float PyFloat.nan =>
      .error ⟨"ValueError", "cannot convert float NaN to integer"⟩
  | Val.str s =>
      match parseIntStr s with
      | some n => .ok n
      | Option.none => .error ⟨"ValueError", "invalid literal for int() with base 10"⟩
  | _ => .error ⟨"TypeError", "int() argument must be a string, a bytes-like object or a number"⟩

/-- Python `value == float('inf')`: true exactly on the float infinity (no
other value the validator handles compares equal to it). -/
def pyEqInf : Val → Bool
  | Val.float PyFloat.inf => true
  | _ => false

/-- Python `str()` of a finite float (exact decimal expansion; every float
literal in the source is dyadic, so an expansion of at most 17 fractional
digits exists). -/
def ratToPyStr (q : ℚ) : String :=
  match (List.range 18).find? (fun k => (q.num * ((10 ^ k : ℕ) : ℤ)) % (q.den : ℤ) == 0) with
  | Option.none => "<float>"
  | some k =>
    let n : ℤ := (q.num * ((10 ^ k : ℕ) : ℤ)) / (q.den : ℤ)
    let sgn := if n < 0 then "-" else ""
    let ds := toString n.natAbs
    let ds := if ds.length ≤ k then String.mk (List.replicate (k + 1 - ds.length) '0') ++ ds else ds
    if k = 0 then sgn ++ ds ++ ".0"
    else sgn ++ ds.take (ds.length - k) ++ "." ++ ds.drop (ds.length - k)

/-- Python `str()` restricted to the value shapes the validator prints in
its error messages. -/
def pyStr : Val → String
  | Val.none => "None"
  | Val.bool b => if b then "True" else "False"
  | Val.int n => toString n
  | Val.float (PyFloat.finite q) => ratToPyStr q
  | Val.float PyFloat.inf => "inf"
  | Val.float PyFloat.negInf => "-inf"
  | Val.float PyFloat.nan => "nan"
  | Val.str s => s
  | Val.quantity _ u => "<Quantity " ++ u ++ ">"
  | Val.list _ => "<list>"
  | Val.dict _ => "<dict>"
  | Val.obj ty => "<" ++ ty.name ++ ">"

/-- `to_integer_or_infinity_coercer` (validator.py lines 149-153): coerce
everything that is not infinity to an integer. -/
def to_integer_or_infinity_coercer (value : Val) : Except PyExc Val :=
  if pyEqInf value then .ok value
  else (pyInt value).map Val.int

/-- `to_none_int_or_checkpoint` (validator.py lines 156-161): identity on
`None` and on the literal string "checkpoint", otherwise `int()`. -/
def to_none_int_or_checkpoint (value : Val) : Except PyExc Val :=
  match value with
  | Val.none => .ok Val.none
  | Val.str s =>
      if s = "checkpoint" then .ok (Val.str s)
      else (pyInt (Val.str s)).map Val.int
  | v => (pyInt v).map Val.int

/-! ## Object constructor parsing (validator.py lines 164-315)

`call_constructor` mutates a deep copy of its argument (pop of `'type'`,
injection of default kwargs).  To formalise the defensive-copy claims, the
caller's dictionary lives in an explicit heap of dictionaries and the
translation performs each mutation on an explicit reference, exactly where
the source does; consecutive mutations of the same fresh private dictionary
between two observations are folded into one heap write. -/

/-- The heap: dictionaries addressed by allocation index. -/
abbrev Heap := List (Assoc Val)

/-- Dereference (out-of-range reads never happen in the translation). -/
def readRef (h : Heap) (r : ℕ) : Assoc Val := h.getD r []

/-- Overwrite the dictionary at reference `r`. -/
def writeRef (h : Heap) (r : ℕ) (d : Assoc Val) : Heap := h.set r d

/-- `copy.deepcopy`: allocate a fresh dictionary with the same contents
(nested values are immutable in this model, so a value copy is exact). -/
def alloc (h : Heap) (d : Assoc Val) : Heap × ℕ := (h ++ [d], h.length)

/-- A coercion function as stored in `special_conversions`. -/
abbrev Coercer := Val → Except PyExc Val

/-- An instantiated object: either an instance produced by a resolved
subclass constructor, or the composite `SequenceMove` wrapper of
`call_mcmc_move_constructor`. -/
inductive Obj where
  | inst (cls : String) (kwargs : Assoc Val)
  | seq (moves : List Obj)

/-- What the core needs to know about a resolved concrete subclass:
the keyword arguments of its `__init__` (`utils.get_keyword_args`) and the
behaviour of instantiating it (`subcls(**kwargs)`). -/
structure Subcls where
  ctorKwargs : List String
  init : Assoc Val → Except PyExc Obj

/-- The external collaborators of the resolver, universally quantified in
every theorem below: the subclass registry (`mmtools.utils.find_subclass`,
raising `ValueError` whose message is the returned string),
`yank.utils.validate_parameters` (called with `check_unknown=True,
process_units_str=True, float_to_int=True` and the given special
conversions), and `yank.utils.quantity_from_string`. -/
structure Env where
  findSubclass : String → String → Except String Subcls
  validateParameters : Assoc Val → List String → Assoc Coercer → Except PyExc (Assoc Val)
  quantityFromString : Val → Except PyExc Val

/-- A concrete environment exercised by the witness theorems: a registry
with two trivially constructible move classes `A` and `B` (with keyword
arguments `x` and `y`), a validator that accepts every description
unchanged, and a quantity parser that always fails. -/
def trivialEnv : Env where
  findSubclass := fun _ name =>
    if name = "A" ∨ name = "B" then
      .ok ⟨["x", "y"], fun kw => .ok (Obj.inst name kw)⟩
    else
      .error ("Could not find class " ++ name)
  validateParameters := fun d _ _ => .ok d
  quantityFromString := fun _ => .error ⟨"TypeError", "cannot parse as quantity"⟩

/-- A subclass whose `__init__` always raises a `ValueError`, for the
witness of the error-wrapping theorem. -/
def failingSubcls : Subcls :=
  ⟨[], fun _ => .error ⟨"ValueError", "boom"⟩⟩

/-- An environment registering the always-failing class `F`, for the
witness of the error-wrapping theorem. -/
def failingInitEnv : Env where
  findSubclass := fun _ name =>
    if name = "F" then .ok failingSubcls
    else .error ("Could not find class " ++ name)
  validateParameters := fun d _ _ => .ok d
  quantityFromString := fun _ => .error ⟨"TypeError", "cannot parse as quantity"⟩

/-- `_check_type_keyword` (validator.py lines 168-174): raise
`RuntimeError` if `'type'` is not in the description.  `d.get('type',
None)` yields `None` both when the key is absent and when it maps to
`None`. -/
def _check_type_keyword (d : Assoc Val) : Except PyExc Unit :=
  match assocGet d "type" with
  | Option.none => .error ⟨"RuntimeError", "\x27type\x27 must be specified"⟩
  | some Val.none => .error ⟨"RuntimeError", "\x27type\x27 must be specified"⟩
  | some (Val.str _) => .ok ()
  | some _ => .error ⟨"RuntimeError", "\x27type\x27 must be a string"⟩

/-- The default-kwargs loop of `call_constructor` (lines 230-232): each
caller default is injected when its key is a constructor kwarg and is not
already present in the description. -/
def injectDefaults (ctorKwargs : List String) (defaultKwargs : Assoc Val)
    (d : Assoc Val) : Assoc Val :=
  defaultKwargs.foldl (fun dd kv =>
    if ctorKwargs.contains kv.1 && (assocGet dd kv.1).isNone
    then assocSet dd kv.1 kv.2 else dd) d

/-- The `convert_quantity_strings` loop of `call_constructor` (lines
245-252): best-effort `quantity_from_string` on every value, keeping the
value unchanged when the parse raises. -/
def convertQuantityStep (env : Env) (kwargs : Assoc Val) : Assoc Val :=
  kwargs.map (fun kv =>
    match env.quantityFromString kv.2 with
    | .ok q => (kv.1, q)
    | .error _ => kv)

/-- `call_constructor` (validator.py lines 177-260) with the caller's
description held in the heap at `r`.  Each source step appears in order:
`_check_type_keyword` on the caller's dictionary; `copy.deepcopy`;
`pop('type')` on the copy; registry lookup (a `ValueError` re-raised as
`RuntimeError`); injection of default kwargs on the copy; validation (a
`TypeError` or `ValueError` re-raised as `RuntimeError`, anything else
propagated); optional quantity-string conversion; instantiation (any
exception re-raised as `RuntimeError`). -/
def call_constructorH (env : Env) (parentCls : String) (h : Heap) (r : ℕ)
    (specialConversions : Assoc Coercer) (convertQuantityStrings : Bool)
    (defaultKwargs : Assoc Val) : Heap × Except PyExc Obj :=
  match _check_type_keyword (readRef h r) with
  | .error e => (h, .error e)
  | .ok _ =>
    let d0 := readRef h r
    let h1 := (alloc h d0).1
    let r1 := (alloc h d0).2
    let subclsNameVal := (assocGet d0 "type").getD Val.none
    let h2 := writeRef h1 r1 (assocErase (readRef h1 r1) "type")
    match subclsNameVal with
    | Val.str subclsName =>
      match env.findSubclass parentCls subclsName with
      | .error msg => (h2, .error ⟨"RuntimeError", msg⟩)
      | .ok subcls =>
        let d2 := injectDefaults subcls.ctorKwargs defaultKwargs (readRef h2 r1)
        let h3 := writeRef h2 r1 d2
        match env.validateParameters d2 subcls.ctorKwargs specialConversions with
        | .error e =>
          if e.kind = "TypeError" ∨ e.kind = "ValueError" then
            (h3, .error ⟨"RuntimeError", "Validation of constructor failed with: " ++ e.msg⟩)
          else (h3, .error e)
        | .ok kwargs =>
          let kwargs2 := if convertQuantityStrings then convertQuantityStep env kwargs else kwargs
          match subcls.init kwargs2 with
          | .error e => (h3, .error ⟨"RuntimeError", "Attempt to initialize failed with: " ++ e.msg⟩)
          | .ok obj => (h3, .ok obj)
    | _ => (h2, .error ⟨"RuntimeError", "unreachable: guarded by _check_type_keyword"⟩)

/-- `call_constructor` on a description passed by value: run the heap
translation on a fresh one-dictionary heap and keep the result. -/
def call_constructor (env : Env) (parentCls : String) (d : Assoc Val)
    (specialConversions : Assoc Coercer) (convertQuantityStrings : Bool)
    (defaultKwargs : Assoc Val) : Except PyExc Obj :=
  (call_constructorH env parentCls [d] 0 specialConversions convertQuantityStrings defaultKwargs).2

/-- `call_constructor` applied to an arbitrary value, as
`call_mcmc_move_constructor` does to the elements of `move_list`: a
non-dictionary raises `AttributeError` at the first `.get` call. -/
def call_constructor_val (env : Env) (parentCls : String) (v : Val)
    (specialConversions : Assoc Coercer) (convertQuantityStrings : Bool)
    (defaultKwargs : Assoc Val) : Except PyExc Obj :=
  match v with
  | Val.dict d => call_constructor env parentCls d specialConversions convertQuantityStrings defaultKwargs
  | _ => .error ⟨"AttributeError", "object has no attribute \x27get\x27"⟩

/-- `call_restraint_constructor` (validator.py lines 263-265). -/
def call_restraint_constructor (env : Env) (d : Assoc Val) : Except PyExc Obj :=
  call_constructor env "ReceptorLigandRestraint" d [] true []

/-- Python iteration over a value (`for x in v`): lists yield their
elements, strings their characters, dictionaries their keys; anything else
raises `TypeError`. -/
def valIterate : Val → Except PyExc (List Val)
  | Val.list xs => .ok xs
  | Val.str s => .ok (s.data.map (fun c => Val.str (String.mk [c])))
  | Val.dict d => .ok (d.map (fun kv => Val.str kv.1))
  | _ => .error ⟨"TypeError", "object is not iterable"⟩

/-- The move-construction loop of `call_mcmc_move_constructor` (validator.py
lines 302-305): build each sub-description in order with
`convert_quantity_strings=True` and the caller's default kwargs, stopping
at the first raised exception. -/
def buildMoves (env : Env) (defaultKwargs : Assoc Val) : List Val → Except PyExc (List Obj)
  | [] => .ok []
  | mc :: rest =>
    match call_constructor_val env "MCMCMove" mc [] true defaultKwargs with
    | .error e => .error e
    | .ok m =>
      match buildMoves env defaultKwargs rest with
      | .error e => .error e
      | .ok ms => .ok (m :: ms)

/-- `call_mcmc_move_constructor` (validator.py lines 268-308): a
`SequenceMove` description must carry `move_list`, whose sub-descriptions
are each built by `call_constructor` against the move base type with
`convert_quantity_strings=True` and the caller's default kwargs, in order;
any other type is built directly. -/
def call_mcmc_move_constructor (env : Env) (d : Assoc Val)
    (defaultKwargs : Assoc Val) : Except PyExc Obj :=
  match _check_type_keyword d with
  | .error e => .error e
  | .ok _ =>
    let isSequenceMove :=
      match assocGet d "type" with
      | some (Val.str s) => s == "SequenceMove"
      | _ => false
    if isSequenceMove && (assocGet d "move_list").isNone then
      .error ⟨"RuntimeError",
        "A SequenceMove must specify a \"move_list\" keyword containing a list of MCMCMoves"⟩
    else
      match (if isSequenceMove
             then valIterate ((assocGet d "move_list").getD Val.none)
             else .ok [Val.dict d]) with
      | .error e => .error e
      | .ok moveCtors =>
        match buildMoves env defaultKwargs moveCtors with
        | .error e => .error e
        | .ok moves =>
          if isSequenceMove then .ok (Obj.seq moves)
          else
            match moves with
            | m :: _ => .ok m
            | [] => .error ⟨"IndexError", "list index out of range"⟩

/-- The two named special conversions installed by
`call_sampler_constructor` (validator.py lines 312-313). -/
def samplerSpecialConversions : Assoc Coercer :=
  [("number_of_iterations", to_integer_or_infinity_coercer),
   ("online_analysis_interval", to_none_int_or_checkpoint)]

/-- `call_sampler_constructor` (validator.py lines 311-315), heap form. -/
def call_sampler_constructorH (env : Env) (h : Heap) (r : ℕ) : Heap × Except PyExc Obj :=
  call_constructorH env "MultiStateSampler" h r samplerSpecialConversions false []

/-- `_validator_is_sampler_constructor` (validator.py lines 109-115)
composed with `_check_subclass_constructor` (lines 129-135): deep-copy the
description, pop `'mcmc_moves'` from the copy, attempt the sampler build,
and turn a `RuntimeError` into one field-level error (any other exception
propagates). -/
def _validator_is_sampler_constructorH (env : Env) (field : String) (h : Heap) (r : ℕ) :
    Heap × Except PyExc (List (String × String)) :=
  let h1 := (alloc h (readRef h r)).1
  let r1 := (alloc h (readRef h r)).2
  let h2 := writeRef h1 r1 (assocErase (readRef h1 r1) "mcmc_moves")
  match call_sampler_constructorH env h2 r1 with
  | (h3, .error e) =>
    if e.kind = "RuntimeError" then (h3, .ok [(field, e.msg)]) else (h3, .error e)
  | (h3, .ok _) => (h3, .ok [])

/-! ## Static validators (validator.py lines 44-115) -/

/-- Index of the last occurrence of `c` in `cs` (`str.rfind`). -/
def lastIndexOf (cs : List Char) (c : Char) : Option ℕ :=
  (cs.foldl (fun (acc : ℕ × Option ℕ) ch =>
    (acc.1 + 1, if ch = c then some acc.1 else acc.2)) (0, Option.none)).2

/-- `os.path.splitext(p)[1]` for POSIX paths: the suffix starting at the
last dot after the last separator, unless the basename up to that dot is
all dots (a leading-dot file such as `.bashrc` has no extension). -/
def splitext_ext (p : String) : String :=
  let cs := p.data
  match lastIndexOf cs '.' with
  | Option.none => ""
  | some dotIndex =>
    let filenameStart := match lastIndexOf cs '/' with
      | Option.none => 0
      | some s => s + 1
    if filenameStart ≤ dotIndex then
      if (List.range' filenameStart (dotIndex - filenameStart)).any
          (fun j => cs.getD j '.' != '.') then
        String.mk (cs.drop dotIndex)
      else ""
    else ""

/-- `os.path.splitext(file_path)[1][1:]`: the extension without its dot. -/
def fileExtensionOf (p : String) : String := (splitext_ext p).drop 1

/-- The recognized extension-set / format-name table of
`_validator_supported_system_files` (validator.py lines 82-87). -/
def expected_extensions : List (String × Finset String) :=
  [("amber", {"inpcrd", "prmtop"}),
   ("amber", {"rst7", "prmtop"}),
   ("gromacs", {"gro", "top"}),
   ("openmm", {"pdb", "xml"})]

/-- `_validator_supported_system_files` (validator.py lines 76-101),
returning the list of `self._error` reports: empty on a match (the match is
only logged), one aggregated error naming all accepted combinations
otherwise. -/
def _validator_supported_system_files (field : String) (file_paths : List String) :
    List (String × String) :=
  match expected_extensions.find?
      (fun pr => decide ((file_paths.map fileExtensionOf).toFinset = pr.2)) with
  | some _ => []
  | Option.none =>
    [(field, field ++ " must have file extensions matching one of the following types: " ++
      "[(\x27amber\x27, \x7b\x27inpcrd\x27, \x27prmtop\x27\x7d), (\x27amber\x27, \x7b\x27rst7\x27, \x27prmtop\x27\x7d), (\x27gromacs\x27, \x7b\x27gro\x27, \x27top\x27\x7d), (\x27openmm\x27, \x7b\x27pdb\x27, \x27xml\x27\x7d)]")]

/-- The per-element test of `_validator_positive_int_list` (validator.py
lines 67-70): an element errs when `not isinstance(p, int) or not p >= 0`
(Python `bool` is a subclass of `int`, and both booleans compare `>= 0`). -/
def isBadPositiveIntElem : Val → Bool
  | Val.int n => decide (n < 0)
  | Val.bool _ => false
  | _ => true

/-- `_validator_positive_int_list` (validator.py lines 67-70), returning
the list of `self._error` reports in loop order. -/
def _validator_positive_int_list (field : String) (value : List Val) :
    List (String × String) :=
  value.foldl (fun errs p =>
    if isBadPositiveIntElem p then
      errs ++ [(field, pyStr p ++ " of must be a positive integer!")]
    else errs) []

/-! ## Automatic schema generation (validator.py lines 318-458) -/

/-- The validation-rule fragment attached to one schema key. -/
inductive RuleCore where
  | nullable
  | coerceUnit (u : String)
  | cerbType (t : String)
  | customValidator (ty : PyType)
deriving DecidableEq

/-- One entry of a generated Cerberus schema: either an auto-derived rule
(`{'required': False}` merged with its `RuleCore`) or an opaque
caller-supplied override from `update_keys`. -/
inductive SchemaRule where
  | derived (core : RuleCore)
  | user (tag : ℕ)
deriving DecidableEq

/-- The body of the closure produced by `generate_unknown_type_validator`
(validator.py lines 338-340): the reports of `nonstandard_type_validator`
on one value, rejecting any value whose exact runtime type differs from
the expected type. -/
def nonstandard_type_validator (a_type : PyType) (value : Val) : List String :=
  if pyTypeOf value ≠ a_type then ["Must be of type " ++ a_type.name] else []

/-- `generate_unknown_type_validator` (validator.py lines 322-342): the
`{'validator': <closure>}` rule fragment for a type with no Cerberus
mapping. -/
def generate_unknown_type_validator (a_type : PyType) : RuleCore :=
  RuleCore.customValidator a_type

/-- The `known_types` table of `type_to_cerberus_map` (validator.py lines
370-382). -/
def known_types : List (PyType × String) :=
  [(⟨"bool", ["int"]⟩, "boolean"),
   (⟨"bytes", []⟩, "binary"),
   (⟨"bytearray", []⟩, "binary"),
   (⟨"date", []⟩, "date"),
   (⟨"Mapping", []⟩, "dict"),
   (⟨"dict", []⟩, "dict"),
   (⟨"float", []⟩, "float"),
   (⟨"int", []⟩, "integer"),
   (⟨"tuple", []⟩, "list"),
   (⟨"list", []⟩, "list"),
   (⟨"Sequence", []⟩, "list"),
   (⟨"str", []⟩, "string"),
   (⟨"set", []⟩, "set")]

/-- `type_to_cerberus_map` (validator.py lines 345-387): the table lookup,
with the `KeyError` of an unknown type caught and degraded to the custom
validator. -/
def type_to_cerberus_map (a_type : PyType) : RuleCore :=
  match known_types.find? (fun pr => decide (pr.1 = a_type)) with
  | some pr => RuleCore.cerbType pr.2
  | Option.none => generate_unknown_type_validator a_type

/-- Modelled from the spec: `yank.utils.camelcase_to_underscore` is not
under `src/`; the spec says parameter names are normalized from camel-case
to underscore-delimited form. -/
def camelcase_to_underscore (s : String) : String :=
  String.mk (s.data.foldr (fun c acc =>
    if c.isUpper then '_' :: c.toLower :: acc else c :: acc) [])

/-- What `inspect.getfullargspec` reports about a callable, as
`generate_signature_schema` consumes it: the positional parameter names and
the default values aligned to the trailing parameters — `None` (not an
empty tuple) when no positional parameter has a default. -/
structure ArgSpec where
  args : List String
  defaults : Option (List Val)

/-- The per-parameter rule derivation of `generate_signature_schema`
(validator.py lines 444-449): a `None` default is nullable, a quantity
default coerces through its unit, any other default maps its type through
`type_to_cerberus_map`. -/
def defaultRuleCore : Val → RuleCore
  | Val.none => RuleCore.nullable
  | Val.quantity _ u => RuleCore.coerceUnit u
  | dv => type_to_cerberus_map (pyTypeOf dv)

/-- The schema-building loop of `generate_signature_schema` (validator.py
lines 442-453) over the (normalized name, default value) pairs. -/
def deriveSchema (excludeSet : List String) (pairs : List (String × Val))
    (acc : Assoc SchemaRule) : Assoc SchemaRule :=
  pairs.foldl (fun schema ad =>
    if excludeSet.contains ad.1 then schema
    else assocSet schema ad.1 (SchemaRule.derived (defaultRuleCore ad.2))) acc

/-- `func_schema.update(update_keys)` (validator.py line 456). -/
def updateSchema (schema : Assoc SchemaRule) (update_keys : Assoc SchemaRule) :
    Assoc SchemaRule :=
  update_keys.foldl (fun s kv => assocSet s kv.1 kv.2) schema

/-- `generate_signature_schema` (validator.py lines 390-458).  The
exclusion set is `exclude_keys` united with the keys of `update_keys`;
parameter names are camel-case-normalized; each non-excluded defaulted
parameter contributes one optional rule derived from its default via
`defaultRuleCore`; `update_keys` is merged last.  When the callable has no
positional defaults, `arg_spec.defaults` is `None` and
`args[-len(defaults):]` raises `TypeError` at `len(None)`. -/
def generate_signature_schema (func : ArgSpec) (update_keys : Assoc SchemaRule)
    (exclude_keys : List String) : Except PyExc (Assoc SchemaRule) :=
  match func.defaults with
  | Option.none => .error ⟨"TypeError", "object of type \x27NoneType\x27 has no len()"⟩
  | some defaults =>
    .ok (updateSchema
      (deriveSchema (exclude_keys ++ update_keys.map (fun kv => kv.1))
        (((func.args.map camelcase_to_underscore).drop
            ((func.args.map camelcase_to_underscore).length - defaults.length)).zip defaults)
        [])
      update_keys)

/-- The normalized names of the trailing parameters that carry the
defaults (`args[-len(defaults):]` after camel-case normalization). -/
def defaultedParamNames (func : ArgSpec) (ds : List Val) : List String :=
  (func.args.map camelcase_to_underscore).drop
    ((func.args.map camelcase_to_underscore).length - ds.length)

/-- The normalized names of the leading parameters without defaults. -/
def nonDefaultedParamNames (func : ArgSpec) (ds : List Val) : List String :=
  (func.args.map camelcase_to_underscore).take
    ((func.args.map camelcase_to_underscore).length - ds.length)

/-! ## Shared helper lemmas -/

/-- Accumulating errors with `foldl` and append is filtering followed by a
map of the error constructor. -/
theorem foldl_append_eq_filter_map {α β : Type} (p : α → Bool) (f : α → β) :
    ∀ (l : List α) (acc : List β),
      l.foldl (fun errs x => if p x then errs ++ [f x] else errs) acc
        = acc ++ (l.filter p).map f := by
  intro l
  induction l with
  | nil => intro acc; simp
  | cons a l ih =>
    intro acc
    by_cases h : p a <;> simp [h, ih, List.filter_cons]

/-! ## C8 -/

/-- C8 counterexample: `to_integer_or_infinity_coercer` is not total — on
the input `None` (a value with no integer conversion) it raises a
`TypeError` from `int(value)` instead of returning a value. -/
theorem to_integer_or_infinity_coercer_fails_on_none :
    to_integer_or_infinity_coercer Val.none =
      .error ⟨"TypeError", "int() argument must be a string, a bytes-like object or a number"⟩ :=
  rfl

/-- C8 (amended): on the infinity sentinel `to_integer_or_infinity_coercer`
is the identity, and on every numeric value (integers, booleans and finite
floats) it returns the value truncated to an integer; it is not total on
arbitrary values, failing exactly where Python `int()` raises (`None`,
non-numeric strings, NaN, negative infinity, containers). -/
theorem to_integer_or_infinity_coercer_on_numbers :
    to_integer_or_infinity_coercer (Val.float PyFloat.inf) = .ok (Val.float PyFloat.inf)
  ∧ (∀ n : ℤ, to_integer_or_infinity_coercer (Val.int n) = .ok (Val.int n))
  ∧ (∀ q : ℚ, to_integer_or_infinity_coercer (Val.float (PyFloat.finite q)) =
      .ok (Val.int (pyTrunc q)))
  ∧ (∀ b : Bool, to_integer_or_infinity_coercer (Val.bool b) =
      .ok (Val.int (if b then 1 else 0))) :=
  ⟨rfl, fun _ => rfl, fun _ => rfl, fun _ => rfl⟩

/-! ## C6 -/

/-- C6: `_validator_positive_int_list` reports exactly one field error per
element that fails the non-negative-integer test, in order and without
short-circuiting (the report list is the filtered input mapped to error
entries, and its length counts the violations); on `[1, -2, 3.5]` it
produces exactly the two distinct entries for `-2` and for `3.5`. -/
theorem positive_int_list_reports_each_violation (field : String) (value : List Val) :
    _validator_positive_int_list field value =
      (value.filter isBadPositiveIntElem).map
        (fun p => (field, pyStr p ++ " of must be a positive integer!"))
  ∧ (_validator_positive_int_list field value).length = value.countP isBadPositiveIntElem
  ∧ _validator_positive_int_list field
      [Val.int 1, Val.int (-2), Val.float (PyFloat.finite (mkRat 7 2))] =
      [(field, "-2 of must be a positive integer!"),
       (field, "3.5 of must be a positive integer!")]
  ∧ ("-2 of must be a positive integer!" : String) ≠ "3.5 of must be a positive integer!" := by
  have key : ∀ vs, _validator_positive_int_list field vs =
      (vs.filter isBadPositiveIntElem).map
        (fun p => (field, pyStr p ++ " of must be a positive integer!")) := by
    intro vs
    unfold _validator_positive_int_list
    simpa using foldl_append_eq_filter_map isBadPositiveIntElem
      (fun p => (field, pyStr p ++ " of must be a positive integer!")) vs []
  refine ⟨key value, ?_, ?_, by decide⟩
  · rw [key value, List.countP_eq_length_filter]
    simp
  · rw [key]
    rfl

/-! ## C7 -/

/-- C7: for a type outside the `known_types` table, `type_to_cerberus_map`
does not fail but returns the synthesized custom-predicate rule, whose
predicate accepts a value exactly when the value's runtime type is that
type — in particular an instance of a strict subtype (here witnessed by an
ancestor-name hypothesis) is rejected with the message
`Must be of type {type name}`. -/
theorem unknown_type_validator_requires_exact_type (a_type : PyType) (v w : Val)
    (hunknown : known_types.find? (fun pr => decide (pr.1 = a_type)) = Option.none)
    (hneq : pyTypeOf w ≠ a_type) (_hsub : a_type.name ∈ (pyTypeOf w).bases) :
    type_to_cerberus_map a_type = RuleCore.customValidator a_type
  ∧ (nonstandard_type_validator a_type v = [] ↔ pyTypeOf v = a_type)
  ∧ nonstandard_type_validator a_type w = ["Must be of type " ++ a_type.name] := by
  refine ⟨?_, ?_, ?_⟩
  · unfold type_to_cerberus_map generate_unknown_type_validator
    rw [hunknown]
  · unfold nonstandard_type_validator
    by_cases h : pyTypeOf v = a_type <;> simp [h]
  · unfold nonstandard_type_validator
    rw [if_pos hneq]

/-- Witness for C7: `MyBase` (with no registered Cerberus mapping) accepts
an exact `MyBase` instance and rejects an instance of the strict subtype
`MyDerived`. -/
theorem unknown_type_validator_requires_exact_type_witness :
    type_to_cerberus_map ⟨"MyBase", []⟩ = RuleCore.customValidator ⟨"MyBase", []⟩
  ∧ (nonstandard_type_validator ⟨"MyBase", []⟩ (Val.obj ⟨"MyBase", []⟩) = [] ↔
      pyTypeOf (Val.obj ⟨"MyBase", []⟩) = ⟨"MyBase", []⟩)
  ∧ nonstandard_type_validator ⟨"MyBase", []⟩ (Val.obj ⟨"MyDerived", ["MyBase"]⟩) =
      ["Must be of type " ++ ("MyBase" : String)] :=
  unknown_type_validator_requires_exact_type ⟨"MyBase", []⟩
    (Val.obj ⟨"MyBase", []⟩) (Val.obj ⟨"MyDerived", ["MyBase"]⟩)
    (by decide) (by decide) (by decide)

/-! ## C10 -/

/-- C10: a description mapping `'type'` explicitly to `None` fails in
`call_constructor` with the same `'type' must be specified` `RuntimeError`
as a description with no `'type'` key at all (and not with the
`'type' must be a string` error), for every environment. -/
theorem explicit_null_type_indistinguishable_from_absent (env : Env) (parentCls : String)
    (sc : Assoc Coercer) (cqs : Bool) (dk : Assoc Val) (dNull dAbsent : Assoc Val)
    (hnull : assocGet dNull "type" = some Val.none)
    (habsent : assocGet dAbsent "type" = Option.none) :
    call_constructor env parentCls dNull sc cqs dk =
      .error ⟨"RuntimeError", "\x27type\x27 must be specified"⟩
  ∧ call_constructor env parentCls dNull sc cqs dk =
      call_constructor env parentCls dAbsent sc cqs dk
  ∧ (⟨"RuntimeError", "\x27type\x27 must be specified"⟩ : PyExc) ≠
      ⟨"RuntimeError", "\x27type\x27 must be a string"⟩ := by
  have h1 : call_constructor env parentCls dNull sc cqs dk =
      .error ⟨"RuntimeError", "\x27type\x27 must be specified"⟩ := by
    unfold call_constructor call_constructorH
    have hr : readRef [dNull] 0 = dNull := rfl
    rw [hr]
    unfold _check_type_keyword
    rw [hnull]
  have h2 : call_constructor env parentCls dAbsent sc cqs dk =
      .error ⟨"RuntimeError", "\x27type\x27 must be specified"⟩ := by
    unfold call_constructor call_constructorH
    have hr : readRef [dAbsent] 0 = dAbsent := rfl
    rw [hr]
    unfold _check_type_keyword
    rw [habsent]
  exact ⟨h1, h1.trans h2.symm, by decide⟩

/-- Witness for C10: a description with an explicit `type: None` and one
with no `type` key produce the identical error. -/
theorem explicit_null_type_indistinguishable_from_absent_witness :
    call_constructor trivialEnv "MCMCMove" [("type", Val.none)] [] false [] =
      .error ⟨"RuntimeError", "\x27type\x27 must be specified"⟩
  ∧ call_constructor trivialEnv "MCMCMove" [("type", Val.none)] [] false [] =
      call_constructor trivialEnv "MCMCMove" [("n_steps", Val.int 10)] [] false []
  ∧ (⟨"RuntimeError", "\x27type\x27 must be specified"⟩ : PyExc) ≠
      ⟨"RuntimeError", "\x27type\x27 must be a string"⟩ :=
  explicit_null_type_indistinguishable_from_absent trivialEnv "MCMCMove" [] false []
    [("type", Val.none)] [("n_steps", Val.int 10)] rfl rfl

/-! ## C1 -/

/-- C1: whenever the discriminator key `'type'` is absent, maps to `None`,
or maps to a non-string, `call_constructor` stops at `_check_type_keyword`
with a `RuntimeError`: the heap is returned untouched (no copy, no pop, no
default injection — no partial processing) and the result is the same for
every environment (so no subclass resolution and no validation can have
run) and for every content of the description's other fields. -/
theorem discriminator_checked_before_everything (env : Env) (parentCls : String)
    (sc : Assoc Coercer) (cqs : Bool) (dk : Assoc Val)
    (h1 h2 h3 : Heap) (r1 r2 r3 : ℕ) (v : Val)
    (habsent : assocGet (readRef h1 r1) "type" = Option.none)
    (hnull : assocGet (readRef h2 r2) "type" = some Val.none)
    (hv : assocGet (readRef h3 r3) "type" = some v)
    (hnstr : ∀ s, v ≠ Val.str s) (hnnone : v ≠ Val.none) :
    call_constructorH env parentCls h1 r1 sc cqs dk =
      (h1, .error ⟨"RuntimeError", "\x27type\x27 must be specified"⟩)
  ∧ call_constructorH env parentCls h2 r2 sc cqs dk =
      (h2, .error ⟨"RuntimeError", "\x27type\x27 must be specified"⟩)
  ∧ call_constructorH env parentCls h3 r3 sc cqs dk =
      (h3, .error ⟨"RuntimeError", "\x27type\x27 must be a string"⟩) := by
  refine ⟨?_, ?_, ?_⟩
  · unfold call_constructorH _check_type_keyword
    rw [habsent]
  · unfold call_constructorH _check_type_keyword
    rw [hnull]
  · unfold call_constructorH _check_type_keyword
    rw [hv]
    cases v with
    | none => exact absurd rfl hnnone
    | str s => exact absurd rfl (hnstr s)
    | bool b => rfl
    | int n => rfl
    | float f => rfl
    | quantity m u => rfl
    | list xs => rfl
    | dict d => rfl
    | obj t => rfl

/-- Witness for C1: a description with no `type`, one with `type: None`,
and one with the integer `type: 5`, each validated on a singleton heap. -/
theorem discriminator_checked_before_everything_witness :
    call_constructorH trivialEnv "MCMCMove" [[("n_steps", Val.int 10)]] 0 [] false [] =
      ([[("n_steps", Val.int 10)]], .error ⟨"RuntimeError", "\x27type\x27 must be specified"⟩)
  ∧ call_constructorH trivialEnv "MCMCMove" [[("type", Val.none)]] 0 [] false [] =
      ([[("type", Val.none)]], .error ⟨"RuntimeError", "\x27type\x27 must be specified"⟩)
  ∧ call_constructorH trivialEnv "MCMCMove" [[("type", Val.int 5)]] 0 [] false [] =
      ([[("type", Val.int 5)]], .error ⟨"RuntimeError", "\x27type\x27 must be a string"⟩) :=
  discriminator_checked_before_everything trivialEnv "MCMCMove" [] false []
    [[("n_steps", Val.int 10)]] [[("type", Val.none)]] [[("type", Val.int 5)]] 0 0 0
    (Val.int 5) rfl rfl rfl (fun _s h => Val.noConfusion h) (fun h => Val.noConfusion h)

/-! ## C9 -/

/-- Reading below the allocation point is unaffected by `deepcopy`'s fresh
allocation. -/
theorem readRef_alloc_lt (h : Heap) (d : Assoc Val) (r : ℕ) (hr : r < h.length) :
    readRef (h ++ [d]) r = readRef h r := by
  simp [readRef, List.getD_eq_getElem?_getD, List.getElem?_append_left hr]

/-- Writing one reference leaves every other reference unchanged. -/
theorem readRef_writeRef_ne (h : Heap) (i j : ℕ) (d : Assoc Val) (hij : i ≠ j) :
    readRef (writeRef h i d) j = readRef h j := by
  simp [writeRef, readRef, List.getD_eq_getElem?_getD, List.getElem?_set_ne hij]

/-- Every mutation `call_constructor` performs happens on the freshly
allocated deep copy: each pre-existing dictionary of the heap — in
particular the caller's description — is unchanged whether the build
succeeds or fails. -/
theorem call_constructorH_frame (env : Env) (parentCls : String) (h : Heap) (r : ℕ)
    (sc : Assoc Coercer) (cqs : Bool) (dk : Assoc Val) (r' : ℕ) (hr' : r' < h.length) :
    readRef (call_constructorH env parentCls h r sc cqs dk).1 r' = readRef h r' := by
  have hne : h.length ≠ r' := fun hEq => absurd (hEq ▸ hr') (lt_irrefl _)
  have halloc : ∀ d, readRef (h ++ [d]) r' = readRef h r' := fun d =>
    readRef_alloc_lt h d r' hr'
  have hw1 : ∀ d X, readRef (writeRef (h ++ [d]) h.length X) r' = readRef h r' := fun d X => by
    rw [readRef_writeRef_ne _ _ _ _ hne, halloc]
  have hw2 : ∀ d X Y,
      readRef (writeRef (writeRef (h ++ [d]) h.length X) h.length Y) r' = readRef h r' :=
    fun d X Y => by rw [readRef_writeRef_ne _ _ _ _ hne, hw1]
  unfold call_constructorH
  dsimp only [alloc]
  split
  · rfl
  · split
    · split
      · exact hw1 _ _
      · split
        · split <;> exact hw2 _ _ _
        · split
          · exact hw2 _ _ _
          · exact hw2 _ _ _
    · exact hw1 _ _

/-- The sampler dry-run validator also only mutates its own deep copy:
pre-existing heap dictionaries are unchanged. -/
theorem _validator_is_sampler_constructorH_frame (env : Env) (field : String)
    (h : Heap) (r : ℕ) (r' : ℕ) (hr' : r' < h.length) :
    readRef (_validator_is_sampler_constructorH env field h r).1 r' = readRef h r' := by
  have hne : h.length ≠ r' := fun hEq => absurd (hEq ▸ hr') (lt_irrefl _)
  have hw1 : ∀ d X, readRef (writeRef (h ++ [d]) h.length X) r' = readRef h r' := fun d X => by
    rw [readRef_writeRef_ne _ _ _ _ hne, readRef_alloc_lt h d r' hr']
  have hlen : ∀ d X, (writeRef (h ++ [d]) h.length X).length = h.length + 1 := by
    intro d X; simp [writeRef]
  unfold _validator_is_sampler_constructorH
  dsimp only [alloc]
  have hcall : ∀ d X,
      readRef (call_sampler_constructorH env
        (writeRef (h ++ [d]) h.length X) h.length).1 r' = readRef h r' := by
    intro d X
    unfold call_sampler_constructorH
    rw [call_constructorH_frame env "MultiStateSampler" _ h.length
      samplerSpecialConversions false [] r' (by rw [hlen]; omega)]
    exact hw1 d X
  split
  · rename_i h3 e heq
    have := hcall (readRef h r) (assocErase (readRef (h ++ [readRef h r]) h.length) "mcmc_moves")
    rw [heq] at this
    split <;> exact this
  · rename_i h3 res heq
    have := hcall (readRef h r) (assocErase (readRef (h ++ [readRef h r]) h.length) "mcmc_moves")
    rw [heq] at this
    exact this

/-- C9: for every constructor description passed to `call_constructor` and
to the sampler dry-run validator, the caller's original description is left
completely unchanged, whether the build succeeds or fails: the pop of
`'type'`, the strip of `'mcmc_moves'` and the default injections all land
on the defensive deep copy. -/
theorem caller_description_never_mutated (env : Env) (parentCls field : String)
    (h : Heap) (r : ℕ) (sc : Assoc Coercer) (cqs : Bool) (dk : Assoc Val)
    (hr : r < h.length) :
    readRef (call_constructorH env parentCls h r sc cqs dk).1 r = readRef h r
  ∧ readRef (_validator_is_sampler_constructorH env field h r).1 r = readRef h r :=
  ⟨call_constructorH_frame env parentCls h r sc cqs dk r hr,
   _validator_is_sampler_constructorH_frame env field h r r hr⟩

/-- Witness for C9: a fully processed successful sampler description — the
build pops `'type'` and injects a default on the copy, yet the caller's
dictionary still holds both original keys afterwards. -/
theorem caller_description_never_mutated_witness :
    readRef (call_constructorH trivialEnv "MCMCMove"
      [[("type", Val.str "A"), ("x", Val.int 3)]] 0 [] true [("y", Val.int 9)]).1 0 =
      readRef [[("type", Val.str "A"), ("x", Val.int 3)]] 0
  ∧ readRef (_validator_is_sampler_constructorH trivialEnv "sampler"
      [[("type", Val.str "A"), ("x", Val.int 3)]] 0).1 0 =
      readRef [[("type", Val.str "A"), ("x", Val.int 3)]] 0 :=
  caller_description_never_mutated trivialEnv "MCMCMove" "sampler"
    [[("type", Val.str "A"), ("x", Val.int 3)]] 0 [] true [("y", Val.int 9)]
    (by decide)

/-- Evaluation steps of the heap primitives on the small concrete heaps
produced by a by-value `call_constructor` run. -/
theorem readRef_singleton (a : Assoc Val) : readRef [a] 0 = a := rfl

/-- `deepcopy` of the only dictionary of a singleton heap. -/
theorem alloc_singleton (a b : Assoc Val) : alloc [a] b = ([a, b], 1) := rfl

/-- Reading the copy on the two-dictionary heap. -/
theorem readRef_pair_one (a b : Assoc Val) : readRef [a, b] 1 = b := rfl

/-- Writing the copy on the two-dictionary heap. -/
theorem writeRef_pair_one (a b c : Assoc Val) : writeRef [a, b] 1 c = [a, c] := rfl

/-! ## C4 -/

/-- `call_constructor` on a description whose discriminator resolves: the
remaining behaviour is validation on the popped-and-defaulted copy followed
by instantiation, with the documented error wrapping. -/
theorem call_constructor_resolved (env : Env) (parentCls : String) (desc : Assoc Val)
    (sc : Assoc Coercer) (cqs : Bool) (dk : Assoc Val) (s : String) (sub : Subcls)
    (hty : assocGet desc "type" = some (Val.str s))
    (hfind : env.findSubclass parentCls s = .ok sub) :
    call_constructor env parentCls desc sc cqs dk =
      (match env.validateParameters
          (injectDefaults sub.ctorKwargs dk (assocErase desc "type")) sub.ctorKwargs sc with
      | .error e =>
          if e.kind = "TypeError" ∨ e.kind = "ValueError" then
            .error ⟨"RuntimeError", "Validation of constructor failed with: " ++ e.msg⟩
          else .error e
      | .ok kwargs =>
          match sub.init (if cqs then convertQuantityStep env kwargs else kwargs) with
          | .error e => .error ⟨"RuntimeError", "Attempt to initialize failed with: " ++ e.msg⟩
          | .ok obj => .ok obj) := by
  have hchk : _check_type_keyword desc = .ok () := by
    unfold _check_type_keyword
    rw [hty]
  unfold call_constructor call_constructorH
  simp only [readRef_singleton, hchk, hty, Option.getD_some, hfind, alloc_singleton,
    readRef_pair_one, writeRef_pair_one]
  cases hV : env.validateParameters
      (injectDefaults sub.ctorKwargs dk (assocErase desc "type")) sub.ctorKwargs sc with
  | error e => by_cases hk : e.kind = "TypeError" ∨ e.kind = "ValueError" <;> simp [hk]
  | ok kwargs =>
    dsimp only
    cases hI : sub.init (if cqs then convertQuantityStep env kwargs else kwargs) with
    | error e => rfl
    | ok obj => rfl

/-- C4: whatever exception (of any class `e.kind`) the resolved subclass's
constructor raises during instantiation, `call_constructor` reports a
`RuntimeError` carrying the original message, so the caller never observes
the subclass's raw exception type. -/
theorem instantiation_errors_wrapped_uniformly (env : Env) (parentCls : String)
    (desc : Assoc Val) (sc : Assoc Coercer) (cqs : Bool) (dk : Assoc Val)
    (s : String) (sub : Subcls) (vkw : Assoc Val) (e : PyExc)
    (hty : assocGet desc "type" = some (Val.str s))
    (hfind : env.findSubclass parentCls s = .ok sub)
    (hval : env.validateParameters
      (injectDefaults sub.ctorKwargs dk (assocErase desc "type")) sub.ctorKwargs sc = .ok vkw)
    (hinit : sub.init (if cqs then convertQuantityStep env vkw else vkw) = .error e) :
    call_constructor env parentCls desc sc cqs dk =
      .error ⟨"RuntimeError", "Attempt to initialize failed with: " ++ e.msg⟩ := by
  rw [call_constructor_resolved env parentCls desc sc cqs dk s sub hty hfind]
  simp only [hval, hinit]

/-- Witness for C4: a constructor that raises a `ValueError` is reported to
the caller as the uniform `RuntimeError` wrapping its message. -/
theorem instantiation_errors_wrapped_uniformly_witness :
    call_constructor failingInitEnv "MCMCMove" [("type", Val.str "F")] [] false [] =
      .error ⟨"RuntimeError", "Attempt to initialize failed with: boom"⟩ :=
  instantiation_errors_wrapped_uniformly failingInitEnv "MCMCMove"
    [("type", Val.str "F")] [] false [] "F" failingSubcls [] ⟨"ValueError", "boom"⟩
    rfl rfl rfl rfl

/-! ## C5 -/

/-- If every sub-description of a move list builds successfully to the
corresponding object, the build loop returns exactly that ordered list. -/
theorem buildMoves_ok_of_pointwise (env : Env) (dk : Assoc Val) :
    ∀ (subs : List Val) (objs : List Obj), objs.length = subs.length →
      (∀ i, i < subs.length →
        call_constructor_val env "MCMCMove" (subs.getD i Val.none) [] true dk =
          .ok (objs.getD i (Obj.seq []))) →
      buildMoves env dk subs = .ok objs := by
  intro subs
  induction subs with
  | nil =>
    intro objs hlen _
    cases objs with
    | nil => rfl
    | cons o os => exact absurd hlen (by simp)
  | cons a rest ih =>
    intro objs hlen hpt
    cases objs with
    | nil => exact absurd hlen (by simp)
    | cons o os =>
      have h0 := hpt 0 (Nat.succ_pos _)
      simp only [List.getD_cons_zero] at h0
      have hrest : buildMoves env dk rest = .ok os := by
        apply ih os (by simpa using hlen)
        intro i hi
        have := hpt (i + 1) (by simpa using Nat.succ_lt_succ hi)
        simpa only [List.getD_cons_succ] using this
      have step : buildMoves env dk (a :: rest) =
          match call_constructor_val env "MCMCMove" a [] true dk with
          | .error e => .error e
          | .ok m =>
            match buildMoves env dk rest with
            | .error e => .error e
            | .ok ms => .ok (m :: ms) := rfl
      rw [step, h0]
      dsimp only
      rw [hrest]

/-- C5: `call_mcmc_move_constructor` (i) fails with a construction error
naming the missing `move_list` field on a `SequenceMove` description
without one; (ii) on a `SequenceMove` description with a `move_list` whose
sub-descriptions all build (each with the caller's default kwargs), returns
the single composite instance wrapping the built objects in their original
order; (iii) on any other type, builds the single description directly. -/
theorem mcmc_move_constructor_composite_behaviour (env : Env) (dk : Assoc Val)
    (dA dB dC : Assoc Val) (subs : List Val) (objs : List Obj) (s : String)
    (hA : assocGet dA "type" = some (Val.str "SequenceMove"))
    (hAml : assocGet dA "move_list" = Option.none)
    (hB : assocGet dB "type" = some (Val.str "SequenceMove"))
    (hBml : assocGet dB "move_list" = some (Val.list subs))
    (hlen : objs.length = subs.length)
    (hbuild : ∀ i, i < subs.length →
      call_constructor_val env "MCMCMove" (subs.getD i Val.none) [] true dk =
        .ok (objs.getD i (Obj.seq [])))
    (hC : assocGet dC "type" = some (Val.str s)) (hs : s ≠ "SequenceMove") :
    call_mcmc_move_constructor env dA dk =
      .error ⟨"RuntimeError",
        "A SequenceMove must specify a \"move_list\" keyword containing a list of MCMCMoves"⟩
  ∧ call_mcmc_move_constructor env dB dk = .ok (Obj.seq objs)
  ∧ call_mcmc_move_constructor env dC dk = call_constructor env "MCMCMove" dC [] true dk := by
  refine ⟨?_, ?_, ?_⟩
  · have hchk : _check_type_keyword dA = .ok () := by
      unfold _check_type_keyword
      rw [hA]
    unfold call_mcmc_move_constructor
    simp [hchk, hA, hAml]
  · have hchk : _check_type_keyword dB = .ok () := by
      unfold _check_type_keyword
      rw [hB]
    have hmoves := buildMoves_ok_of_pointwise env dk subs objs hlen hbuild
    unfold call_mcmc_move_constructor
    simp [hchk, hB, hBml, valIterate, hmoves]
  · have hchk : _check_type_keyword dC = .ok () := by
      unfold _check_type_keyword
      rw [hC]
    have hseq : (s == "SequenceMove") = false := beq_eq_false_iff_ne.mpr hs
    unfold call_mcmc_move_constructor
    simp only [hchk, hC, hseq, Bool.false_and, Bool.false_eq_true, if_false]
    cases hres : call_constructor env "MCMCMove" dC [] true dk with
    | error e =>
      have hb : buildMoves env dk [Val.dict dC] = .error e := by
        have step : buildMoves env dk [Val.dict dC] =
            match call_constructor_val env "MCMCMove" (Val.dict dC) [] true dk with
            | .error e => .error e
            | .ok m =>
              match buildMoves env dk ([] : List Val) with
              | .error e => .error e
              | .ok ms => .ok (m :: ms) := rfl
        rw [step]
        show (match call_constructor env "MCMCMove" dC [] true dk with
              | .error e => (.error e : Except PyExc (List Obj))
              | .ok m =>
                match buildMoves env dk ([] : List Val) with
                | .error e => .error e
                | .ok ms => .ok (m :: ms)) = .error e
        rw [hres]
      simp [hb]
    | ok m =>
      have hb : buildMoves env dk [Val.dict dC] = .ok [m] := by
        have step : buildMoves env dk [Val.dict dC] =
            match call_constructor_val env "MCMCMove" (Val.dict dC) [] true dk with
            | .error e => .error e
            | .ok m =>
              match buildMoves env dk ([] : List Val) with
              | .error e => .error e
              | .ok ms => .ok (m :: ms) := rfl
        rw [step]
        show (match call_constructor env "MCMCMove" dC [] true dk with
              | .error e => (.error e : Except PyExc (List Obj))
              | .ok m =>
                match buildMoves env dk ([] : List Val) with
                | .error e => .error e
                | .ok ms => .ok (m :: ms)) = .ok [m]
        rw [hres]
        rfl
      simp [hb]

/-- Witness for C5: under the concrete registry with classes `A` and `B`, a
`SequenceMove` without `move_list` fails naming the field; one with a
two-element `move_list` wraps the two built instances in order (the default
kwarg `y` propagated into both); a `GHMCMove` description is built
directly. -/
theorem mcmc_move_constructor_composite_behaviour_witness :
    call_mcmc_move_constructor trivialEnv [("type", Val.str "SequenceMove")] [("y", Val.int 9)] =
      .error ⟨"RuntimeError",
        "A SequenceMove must specify a \"move_list\" keyword containing a list of MCMCMoves"⟩
  ∧ call_mcmc_move_constructor trivialEnv
      [("type", Val.str "SequenceMove"),
       ("move_list", Val.list [Val.dict [("type", Val.str "A")],
                               Val.dict [("type", Val.str "B"), ("x", Val.int 1)]])]
      [("y", Val.int 9)] =
      .ok (Obj.seq [Obj.inst "A" [("y", Val.int 9)],
                    Obj.inst "B" [("x", Val.int 1), ("y", Val.int 9)]])
  ∧ call_mcmc_move_constructor trivialEnv
      [("type", Val.str "GHMCMove"), ("n_steps", Val.int 10)] [("y", Val.int 9)] =
      call_constructor trivialEnv "MCMCMove"
        [("type", Val.str "GHMCMove"), ("n_steps", Val.int 10)] [] true [("y", Val.int 9)] :=
  mcmc_move_constructor_composite_behaviour trivialEnv [("y", Val.int 9)]
    [("type", Val.str "SequenceMove")]
    [("type", Val.str "SequenceMove"),
     ("move_list", Val.list [Val.dict [("type", Val.str "A")],
                             Val.dict [("type", Val.str "B"), ("x", Val.int 1)]])]
    [("type", Val.str "GHMCMove"), ("n_steps", Val.int 10)]
    [Val.dict [("type", Val.str "A")], Val.dict [("type", Val.str "B"), ("x", Val.int 1)]]
    [Obj.inst "A" [("y", Val.int 9)], Obj.inst "B" [("x", Val.int 1), ("y", Val.int 9)]]
    "GHMCMove" rfl rfl rfl rfl rfl
    (by
      intro i hi
      have hi2 : i < 2 := by simpa using hi
      interval_cases i <;> rfl)
    rfl (by decide)

/-! ## C3 -/

/-- C3: `_validator_supported_system_files` accepts a list of file paths
exactly when the set of their extensions equals one of the four recognized
combinations, independently of the order of the paths; when there is no
match it reports a single aggregated error (listing all accepted
combinations), and a match produces no error. -/
theorem supported_system_files_exact_combinations (field : String)
    (paths paths2 : List String) (hperm : paths2.Perm paths) :
    (_validator_supported_system_files field paths = [] ↔
      ((paths.map fileExtensionOf).toFinset = ({"inpcrd", "prmtop"} : Finset String) ∨
       (paths.map fileExtensionOf).toFinset = ({"rst7", "prmtop"} : Finset String) ∨
       (paths.map fileExtensionOf).toFinset = ({"gro", "top"} : Finset String) ∨
       (paths.map fileExtensionOf).toFinset = ({"pdb", "xml"} : Finset String)))
  ∧ (_validator_supported_system_files field paths = [] ∨
      (_validator_supported_system_files field paths).length = 1)
  ∧ _validator_supported_system_files field paths2 =
      _validator_supported_system_files field paths := by
  have hS2 : (paths2.map fileExtensionOf).toFinset = (paths.map fileExtensionOf).toFinset :=
    List.toFinset_eq_of_perm _ _ (hperm.map fileExtensionOf)
  refine ⟨?_, ?_, ?_⟩
  · unfold _validator_supported_system_files
    cases hf : expected_extensions.find?
        (fun pr => decide ((paths.map fileExtensionOf).toFinset = pr.2)) with
    | some pr =>
      have hp := List.find?_some hf
      simp only [decide_eq_true_eq] at hp
      have hS : (paths.map fileExtensionOf).toFinset = pr.2 := hp
      have hmem : pr ∈ expected_extensions := List.mem_of_find?_eq_some hf
      simp only [expected_extensions, List.mem_cons, List.not_mem_nil, or_false] at hmem
      constructor
      · intro _
        rcases hmem with h | h | h | h <;> rw [h] at hS <;> tauto
      · intro _
        rfl
    | none =>
      have hnone := List.find?_eq_none.mp hf
      have h1 := hnone ("amber", {"inpcrd", "prmtop"}) (by simp [expected_extensions])
      have h2 := hnone ("amber", {"rst7", "prmtop"}) (by simp [expected_extensions])
      have h3 := hnone ("gromacs", {"gro", "top"}) (by simp [expected_extensions])
      have h4 := hnone ("openmm", {"pdb", "xml"}) (by simp [expected_extensions])
      simp only [decide_eq_true_eq] at h1 h2 h3 h4
      constructor
      · intro habs
        exact absurd habs (by simp)
      · intro hdisj
        rcases hdisj with h | h | h | h
        exacts [absurd h h1, absurd h h2, absurd h h3, absurd h h4]
  · unfold _validator_supported_system_files
    cases hf : expected_extensions.find?
        (fun pr => decide ((paths.map fileExtensionOf).toFinset = pr.2)) with
    | some pr => exact Or.inl rfl
    | none => exact Or.inr rfl
  · unfold _validator_supported_system_files
    rw [hS2]

/-- Witness for C3: an amber bundle is accepted in either path order; a
lone `.gro` file is rejected with one aggregated error. -/
theorem supported_system_files_exact_combinations_witness :
    (_validator_supported_system_files "phase1_path" ["complex.prmtop", "complex.inpcrd"] = [] ↔
      ((["complex.prmtop", "complex.inpcrd"].map fileExtensionOf).toFinset =
          ({"inpcrd", "prmtop"} : Finset String) ∨
       (["complex.prmtop", "complex.inpcrd"].map fileExtensionOf).toFinset =
          ({"rst7", "prmtop"} : Finset String) ∨
       (["complex.prmtop", "complex.inpcrd"].map fileExtensionOf).toFinset =
          ({"gro", "top"} : Finset String) ∨
       (["complex.prmtop", "complex.inpcrd"].map fileExtensionOf).toFinset =
          ({"pdb", "xml"} : Finset String)))
  ∧ (_validator_supported_system_files "phase1_path" ["complex.prmtop", "complex.inpcrd"] = [] ∨
      (_validator_supported_system_files "phase1_path" ["complex.prmtop", "complex.inpcrd"]).length = 1)
  ∧ _validator_supported_system_files "phase1_path" ["complex.inpcrd", "complex.prmtop"] =
      _validator_supported_system_files "phase1_path" ["complex.prmtop", "complex.inpcrd"] :=
  supported_system_files_exact_combinations "phase1_path"
    ["complex.prmtop", "complex.inpcrd"] ["complex.inpcrd", "complex.prmtop"] (by decide)

/-! ## C2 -/

/-- Lookup misses exactly the keys outside the dictionary. -/
theorem assocGet_eq_none_iff {α : Type} (d : Assoc α) (q : String) :
    assocGet d q = Option.none ↔ q ∉ d.map Prod.fst := by
  induction d with
  | nil => simp [assocGet]
  | cons kv rest ih =>
    by_cases h : kv.1 = q
    · simp [assocGet, h]
    · have h' : ¬ q = kv.1 := fun hEq => h hEq.symm
      simp [assocGet, h, h', ih]

/-- Lookup distributes over append, preferring the left dictionary. -/
theorem assocGet_append {α : Type} (d1 d2 : Assoc α) (q : String) :
    assocGet (d1 ++ d2) q =
      match assocGet d1 q with
      | some v => some v
      | Option.none => assocGet d2 q := by
  induction d1 with
  | nil => rfl
  | cons kv rest ih =>
    by_cases h : kv.1 = q <;> simp [assocGet, h, ih]

/-- Replacing the value stored under `k` in place does not affect lookups
of other keys. -/
theorem assocGet_map_keyfix {α : Type} (d : Assoc α) (k : String) (v : α) (q : String)
    (hq : q ≠ k) :
    assocGet (d.map (fun kv => if kv.1 = k then (k, v) else kv)) q = assocGet d q := by
  induction d with
  | nil => rfl
  | cons kv rest ih =>
    obtain ⟨k', v'⟩ := kv
    rw [List.map_cons]
    by_cases h : k' = k
    · subst h
      have hhead : (if (k', v').1 = k' then (k', v) else (k', v')) = (k', v) := by simp
      rw [hhead]
      have hk'q : ¬ (k' = q) := fun hEq => hq hEq.symm
      simp [assocGet, hk'q, ih]
    · have hhead : (if (k', v').1 = k then (k, v) else (k', v')) = (k', v') := by simp [h]
      rw [hhead]
      by_cases h2 : k' = q <;> simp [assocGet, h2, ih]

/-- `assocSet` does not affect lookups of other keys. -/
theorem assocGet_assocSet_ne {α : Type} (d : Assoc α) (k q : String) (v : α) (hq : q ≠ k) :
    assocGet (assocSet d k v) q = assocGet d q := by
  unfold assocSet
  cases hk : assocGet d k with
  | some w =>
    rw [if_pos (show (some w).isSome = true from rfl)]
    exact assocGet_map_keyfix d k v q hq
  | none =>
    rw [if_neg (show ¬ (Option.none : Option α).isSome = true from by simp)]
    rw [assocGet_append]
    cases hg : assocGet d q with
    | some v' => rfl
    | none =>
      have hkq : ¬ (k = q) := fun hEq => hq hEq.symm
      simp [assocGet, hkq]

/-- Keys after an in-place replacement. -/
theorem assocSet_map_fst_of_present {α : Type} (d : Assoc α) (k : String) (v : α)
    (h : (assocGet d k).isSome) :
    (assocSet d k v).map Prod.fst = d.map Prod.fst := by
  unfold assocSet
  simp only [h, if_true, List.map_map]
  apply List.map_congr_left
  intro kv _
  by_cases hk : kv.1 = k <;> simp [hk]

/-- Keys after appending a fresh binding. -/
theorem assocSet_map_fst_of_absent {α : Type} (d : Assoc α) (k : String) (v : α)
    (h : assocGet d k = Option.none) :
    (assocSet d k v).map Prod.fst = d.map Prod.fst ++ [k] := by
  unfold assocSet
  simp [h]

/-- `assocSet` preserves key membership. -/
theorem mem_keys_assocSet {α : Type} (d : Assoc α) (k q : String) (v : α)
    (h : q ∈ d.map Prod.fst) : q ∈ (assocSet d k v).map Prod.fst := by
  by_cases hp : (assocGet d k).isSome
  · rwa [assocSet_map_fst_of_present d k v hp]
  · rw [assocSet_map_fst_of_absent d k v (by simpa using hp)]
    exact List.mem_append_left _ h

/-- The key just set is among the keys. -/
theorem mem_keys_assocSet_self {α : Type} (d : Assoc α) (k : String) (v : α) :
    k ∈ (assocSet d k v).map Prod.fst := by
  by_cases hp : (assocGet d k).isSome
  · rw [assocSet_map_fst_of_present d k v hp]
    rcases Option.isSome_iff_exists.mp hp with ⟨w, hw⟩
    by_contra habs
    rw [← assocGet_eq_none_iff] at habs
    rw [habs] at hw
    cases hw
  · rw [assocSet_map_fst_of_absent d k v (by simpa using hp)]
    simp

/-- `assocSet` preserves key distinctness. -/
theorem assocSet_keys_nodup {α : Type} (d : Assoc α) (k : String) (v : α)
    (h : (d.map Prod.fst).Nodup) : ((assocSet d k v).map Prod.fst).Nodup := by
  by_cases hp : (assocGet d k).isSome
  · rwa [assocSet_map_fst_of_present d k v hp]
  · have habs : assocGet d k = Option.none := by simpa using hp
    rw [assocSet_map_fst_of_absent d k v habs]
    rw [assocGet_eq_none_iff] at habs
    simp [List.nodup_append, h, habs]

/-- One step of the derivation loop. -/
theorem deriveSchema_cons (excludeSet : List String) (ad : String × Val)
    (rest : List (String × Val)) (acc : Assoc SchemaRule) :
    deriveSchema excludeSet (ad :: rest) acc =
      deriveSchema excludeSet rest
        (if excludeSet.contains ad.1 = true then acc
         else assocSet acc ad.1 (SchemaRule.derived (defaultRuleCore ad.2))) := rfl

/-- One step of the final merge. -/
theorem updateSchema_cons (kv : String × SchemaRule) (rest : Assoc SchemaRule)
    (s : Assoc SchemaRule) :
    updateSchema s (kv :: rest) = updateSchema (assocSet s kv.1 kv.2) rest := rfl

/-- Keys not produced by the derivation loop stay absent. -/
theorem deriveSchema_get_none (excludeSet : List String) :
    ∀ (pairs : List (String × Val)) (acc : Assoc SchemaRule) (q : String),
      (∀ x ∈ pairs, x.1 ≠ q) → assocGet acc q = Option.none →
      assocGet (deriveSchema excludeSet pairs acc) q = Option.none := by
  intro pairs
  induction pairs with
  | nil => intro acc q _ hacc; exact hacc
  | cons ad rest ih =>
    intro acc q hne hacc
    rw [deriveSchema_cons]
    apply ih _ q (fun x hx => hne x (by simp [hx]))
    by_cases he : excludeSet.contains ad.1 = true
    · rw [if_pos he]; exact hacc
    · rw [if_neg he]
      rw [assocGet_assocSet_ne acc ad.1 q _ (fun hEq => hne ad (by simp) hEq.symm)]
      exact hacc

/-- Keys not in `update_keys` stay absent through the final merge. -/
theorem updateSchema_get_none :
    ∀ (uk : Assoc SchemaRule) (s : Assoc SchemaRule) (q : String),
      (∀ x ∈ uk, x.1 ≠ q) → assocGet s q = Option.none →
      assocGet (updateSchema s uk) q = Option.none := by
  intro uk
  induction uk with
  | nil => intro s q _ hs; exact hs
  | cons kv rest ih =>
    intro s q hne hs
    rw [updateSchema_cons]
    apply ih _ q (fun x hx => hne x (by simp [hx]))
    rw [assocGet_assocSet_ne s kv.1 q _ (fun hEq => hne kv (by simp) hEq.symm)]
    exact hs

/-- Every non-excluded pair key ends up among the derived schema's keys. -/
theorem deriveSchema_mem_keys (excludeSet : List String) :
    ∀ (pairs : List (String × Val)) (acc : Assoc SchemaRule) (p : String),
      (p ∈ acc.map Prod.fst ∨
        (p ∈ pairs.map Prod.fst ∧ excludeSet.contains p = false)) →
      p ∈ (deriveSchema excludeSet pairs acc).map Prod.fst := by
  intro pairs
  induction pairs with
  | nil =>
    intro acc p hp
    rcases hp with h | ⟨h, _⟩
    · exact h
    · simp at h
  | cons ad rest ih =>
    intro acc p hp
    rw [deriveSchema_cons]
    rcases hp with h | ⟨h, hex⟩
    · apply ih
      left
      by_cases he : excludeSet.contains ad.1 = true
      · rw [if_pos he]; exact h
      · rw [if_neg he]
        exact mem_keys_assocSet acc ad.1 p _ h
    · rw [List.map_cons] at h
      rcases List.mem_cons.mp h with h1 | h1
      · apply ih
        left
        have he : ¬ excludeSet.contains ad.1 = true := by
          rw [← h1, hex]
          simp
        rw [if_neg he]
        exact h1 ▸ mem_keys_assocSet_self acc ad.1 _
      · exact ih _ p (Or.inr ⟨h1, hex⟩)

/-- The final merge preserves key membership. -/
theorem updateSchema_mem_keys :
    ∀ (uk : Assoc SchemaRule) (s : Assoc SchemaRule) (p : String),
      p ∈ s.map Prod.fst → p ∈ (updateSchema s uk).map Prod.fst := by
  intro uk
  induction uk with
  | nil => intro s p hp; exact hp
  | cons kv rest ih =>
    intro s p hp
    rw [updateSchema_cons]
    exact ih _ p (mem_keys_assocSet s kv.1 p kv.2 hp)

/-- The derivation loop keeps the schema's keys distinct. -/
theorem deriveSchema_keys_nodup (excludeSet : List String) :
    ∀ (pairs : List (String × Val)) (acc : Assoc SchemaRule),
      (acc.map Prod.fst).Nodup → ((deriveSchema excludeSet pairs acc).map Prod.fst).Nodup := by
  intro pairs
  induction pairs with
  | nil => intro acc h; exact h
  | cons ad rest ih =>
    intro acc h
    rw [deriveSchema_cons]
    apply ih
    by_cases he : excludeSet.contains ad.1 = true
    · rw [if_pos he]; exact h
    · rw [if_neg he]
      exact assocSet_keys_nodup acc ad.1 _ h

/-- The final merge keeps the schema's keys distinct. -/
theorem updateSchema_keys_nodup :
    ∀ (uk : Assoc SchemaRule) (s : Assoc SchemaRule),
      (s.map Prod.fst).Nodup → ((updateSchema s uk).map Prod.fst).Nodup := by
  intro uk
  induction uk with
  | nil => intro s h; exact h
  | cons kv rest ih =>
    intro s h
    rw [updateSchema_cons]
    exact ih _ (assocSet_keys_nodup s kv.1 kv.2 h)

/-- C2 (amended): for a callable with at least one defaulted positional
parameter (`getfullargspec` reports `defaults = some ds`), the generated
schema has exactly one entry for every normalized defaulted parameter name
outside the exclusion set (caller-excluded keys united with override keys),
and no entry for any parameter without a default (whose name is not itself
an override key); normalized names are assumed pairwise distinct.  A
callable with zero defaulted parameters does not get an empty schema:
`defaults` is `None` and the schema generator raises a `TypeError` at
`len(None)`. -/
theorem generate_signature_schema_entry_per_defaulted_param (func : ArgSpec)
    (update_keys : Assoc SchemaRule) (exclude_keys : List String)
    (ds : List Val) (schema : Assoc SchemaRule)
    (hd : func.defaults = some ds)
    (hnodup : (func.args.map camelcase_to_underscore).Nodup)
    (hres : generate_signature_schema func update_keys exclude_keys = .ok schema) :
    (∀ p, p ∈ defaultedParamNames func ds →
      (exclude_keys ++ update_keys.map (fun kv => kv.1)).contains p = false →
      List.count p (schema.map Prod.fst) = 1)
  ∧ (∀ q, q ∈ nonDefaultedParamNames func ds →
      (update_keys.map (fun kv => kv.1)).contains q = false →
      assocGet schema q = Option.none)
  ∧ (∀ fn : ArgSpec, fn.defaults = Option.none →
      generate_signature_schema fn update_keys exclude_keys =
        .error ⟨"TypeError", "object of type \x27NoneType\x27 has no len()"⟩) := by
  simp only [generate_signature_schema, hd, Except.ok.injEq] at hres
  have hkeys : ((((func.args.map camelcase_to_underscore).drop
      ((func.args.map camelcase_to_underscore).length - ds.length)).zip ds).map Prod.fst) =
      defaultedParamNames func ds := by
    apply List.map_fst_zip
    rw [List.length_drop]
    omega
  refine ⟨?_, ?_, ?_⟩
  · intro p hp hex
    rw [← hres]
    have hmem : p ∈ (updateSchema
        (deriveSchema (exclude_keys ++ update_keys.map (fun kv => kv.1))
          (((func.args.map camelcase_to_underscore).drop
              ((func.args.map camelcase_to_underscore).length - ds.length)).zip ds) [])
        update_keys).map Prod.fst := by
      apply updateSchema_mem_keys
      apply deriveSchema_mem_keys
      right
      constructor
      · rw [hkeys]; exact hp
      · exact hex
    have hnd : ((updateSchema
        (deriveSchema (exclude_keys ++ update_keys.map (fun kv => kv.1))
          (((func.args.map camelcase_to_underscore).drop
              ((func.args.map camelcase_to_underscore).length - ds.length)).zip ds) [])
        update_keys).map Prod.fst).Nodup := by
      apply updateSchema_keys_nodup
      apply deriveSchema_keys_nodup
      simp
    exact List.count_eq_one_of_mem hnd hmem
  · intro q hq huk
    rw [← hres]
    have hsplit : nonDefaultedParamNames func ds ++ defaultedParamNames func ds =
        func.args.map camelcase_to_underscore :=
      List.take_append_drop _ _
    have hdisj : q ∉ defaultedParamNames func ds := by
      rw [← hsplit] at hnodup
      rcases List.nodup_append.mp hnodup with ⟨_, _, hdis⟩
      exact fun hmem => hdis hq hmem
    have hne1 : ∀ x ∈ (((func.args.map camelcase_to_underscore).drop
        ((func.args.map camelcase_to_underscore).length - ds.length)).zip ds), x.1 ≠ q := by
      intro x hx hxq
      apply hdisj
      rw [← hkeys]
      exact hxq ▸ List.mem_map_of_mem Prod.fst hx
    have hne2 : ∀ x ∈ update_keys, x.1 ≠ q := by
      intro x hx hxq
      have : q ∈ update_keys.map (fun kv => kv.1) := hxq ▸ List.mem_map_of_mem _ hx
      simp only [List.contains_eq_any_beq] at huk
      rw [List.any_eq_false] at huk
      exact absurd (beq_self_eq_true q) (huk q this)
    exact updateSchema_get_none _ _ q hne2
      (deriveSchema_get_none _ _ _ q hne1 rfl)
  · intro fn hfn
    simp [generate_signature_schema, hfn]

/-- C2 counterexample: on a callable with zero defaulted parameters
(`getfullargspec` reports `defaults = None`), `generate_signature_schema`
raises a `TypeError` (Python evaluates `len(None)`) instead of returning an
empty schema. -/
theorem generate_signature_schema_zero_defaults_raises :
    generate_signature_schema ⟨["self", "topography"], Option.none⟩ [] [] =
      .error ⟨"TypeError", "object of type \x27NoneType\x27 has no len()"⟩
  ∧ generate_signature_schema ⟨["self", "topography"], Option.none⟩ [] [] ≠ .ok [] :=
  ⟨rfl, fun h => Except.noConfusion h⟩

/-- Witness for C2: a callable `f(self, a, camelCase=True, nsteps=None)`
with an override key `special`: the two defaulted parameters map to exactly
one schema entry each, the non-defaulted ones to none. -/
theorem generate_signature_schema_entry_per_defaulted_param_witness :
    (∀ p, p ∈ defaultedParamNames ⟨["self", "a", "camelCase", "nsteps"],
        some [Val.bool true, Val.none]⟩ [Val.bool true, Val.none] →
      (([] : List String) ++ [("special", SchemaRule.user 0)].map
          (fun kv : String × SchemaRule => kv.1)).contains p = false →
      List.count p (([("camel_case", SchemaRule.derived (RuleCore.cerbType "boolean")),
          ("nsteps", SchemaRule.derived RuleCore.nullable),
          ("special", SchemaRule.user 0)].map Prod.fst)) = 1)
  ∧ (∀ q, q ∈ nonDefaultedParamNames ⟨["self", "a", "camelCase", "nsteps"],
        some [Val.bool true, Val.none]⟩ [Val.bool true, Val.none] →
      ([("special", SchemaRule.user 0)].map
          (fun kv : String × SchemaRule => kv.1)).contains q = false →
      assocGet [("camel_case", SchemaRule.derived (RuleCore.cerbType "boolean")),
          ("nsteps", SchemaRule.derived RuleCore.nullable),
          ("special", SchemaRule.user 0)] q = Option.none)
  ∧ (∀ fn : ArgSpec, fn.defaults = Option.none →
      generate_signature_schema fn [("special", SchemaRule.user 0)] [] =
        .error ⟨"TypeError", "object of type \x27NoneType\x27 has no len()"⟩) :=
  generate_signature_schema_entry_per_defaulted_param
    ⟨["self", "a", "camelCase", "nsteps"], some [Val.bool true, Val.none]⟩
    [("special", SchemaRule.user 0)] [] [Val.bool true, Val.none]
    [("camel_case", SchemaRule.derived (RuleCore.cerbType "boolean")),
     ("nsteps", SchemaRule.derived RuleCore.nullable),
     ("special", SchemaRule.user 0)]
    rfl (by decide) rfl

end Yank
